import Mathlib

/-!
Shallow embedding of `preprocess.py` (SRGAN dataset preprocessing).

Modelling conventions:
* An `Image` is a width, a height, and a pixel grid (a total function on
  coordinates; values are abstract channel samples).  Image loading and RGB
  conversion are opaque per the spec, so entry points take an `Image`.
* Python floats are modelled by `ℚ`; Python `round` (banker's rounding,
  half-to-even) is `pyRound`.
* The global `random` module is modelled by explicit state threading: `Rng`
  is a stream of raw draws and `randint lo hi` consumes one draw, returning
  a value in `[lo, hi]`.
* `PIL.Image.crop` with a box `(left, top, left+cw, top+ch)` always returns
  a `cw × ch` image; pixels of the box outside the source are black (0).
* `resize` with the LANCZOS / BICUBIC filters is an opaque geometric resize
  to the exact target dimensions; the two filters are kept as distinct
  definitions.  No claim depends on the interpolated pixel values.
* Exceptions are modelled with `Except`; printing is modelled by returning
  the emitted lines.
-/

namespace SRGAN

structure Image where
  w : Nat
  h : Nat
  pix : Nat → Nat → Nat

def HR_PATCH : Nat := 384

def LR_PATCH : Nat := 96

def UPSCALE : Nat := HR_PATCH / LR_PATCH

def PATCHES_PER_IMAGE : Nat := 6

def RANDOM_CROP : Bool := true

/-- Python 3 `round` on an exact value: round half to even. -/
def pyRound (q : ℚ) : ℤ :=
  if q - ⌊q⌋ < 1/2 then ⌊q⌋
  else if (1 : ℚ)/2 < q - ⌊q⌋ then ⌊q⌋ + 1
  else if ⌊q⌋ % 2 = 0 then ⌊q⌋ else ⌊q⌋ + 1

/-- The pseudorandom source: a stream of raw draws. -/
abbrev Rng := List Nat

/-- Model of `random.randint(lo, hi)`: inclusive bounds, consumes one draw. -/
def randint (lo hi : Nat) : Rng → Nat × Rng
  | [] => (lo, [])
  | d :: rest => (lo + d % (hi + 1 - lo), rest)

/-- Model of `PIL.Image.crop((left, top, left+cw, top+ch))`: the result always has
size `cw × ch`; box pixels outside the source are black. -/
def pilCrop (img : Image) (left top cw ch : Nat) : Image :=
  ⟨cw, ch, fun x y =>
    if left + x < img.w ∧ top + y < img.h then img.pix (left + x) (top + y) else 0⟩

/-- Opaque geometric resize, LANCZOS filter (used for upscaling). -/
def resizeLanczos (img : Image) (nw nh : Nat) : Image :=
  ⟨nw, nh, fun x y => img.pix (x * img.w / nw) (y * img.h / nh)⟩

/-- Opaque geometric resize, BICUBIC filter (used for downscaling). -/
def resizeBicubic (img : Image) (nw nh : Nat) : Image :=
  ⟨nw, nh, fun x y => img.pix (x * img.w / nw) (y * img.h / nh)⟩

/-- Source `ensure_min_size`: upscale so the smaller dimension reaches `min_size`. -/
def ensure_min_size (img : Image) (min_size : Nat) : Image :=
  if min_size ≤ min img.w img.h then img
  else
    let scale : ℚ := (min_size : ℚ) / ((min img.w img.h : ℕ) : ℚ)
    let nw := (pyRound ((img.w : ℚ) * scale)).toNat
    let nh := (pyRound ((img.h : ℚ) * scale)).toNat
    resizeLanczos img nw nh

/-- Source `center_crop`: offsets are `max(0, (dim - crop)//2)`; Nat subtraction
and division model Python's `max(0, ...)` and floor division exactly on the
clamped-at-zero values. -/
def center_crop (img : Image) (crop_w crop_h : Nat) : Image × (Nat × Nat) :=
  let left := (img.w - crop_w) / 2
  let top := (img.h - crop_h) / 2
  (pilCrop img left top crop_w crop_h, (left, top))

/-- Source `random_crop`: exact-size images are copied without consuming randomness;
otherwise two draws pick a uniform offset in `[0, w-cw] × [0, h-ch]`. -/
def random_crop (img : Image) (crop_w crop_h : Nat) (g : Rng) :
    (Image × (Nat × Nat)) × Rng :=
  if img.w = crop_w ∧ img.h = crop_h then ((img, (0, 0)), g)
  else
    let maxLeft := img.w - crop_w
    let maxTop := img.h - crop_h
    let r1 := randint 0 maxLeft g
    let r2 := randint 0 maxTop r1.2
    ((pilCrop img r1.1 r2.1 crop_w crop_h, (r1.1, r2.1)), r2.2)

/-- Source `downsample`: BICUBIC resize to the target dimensions. -/
def downsample (img : Image) (out_w out_h : Nat) : Image :=
  resizeBicubic img out_w out_h

/-- One iteration of the generate-mode loop: pick an `HR_PATCH` square crop
(random only when enabled and both dimensions strictly exceed `HR_PATCH`),
then downsample it to `LR_PATCH` square. -/
def genPatch (img : Image) (rc : Bool) (g : Rng) : (Image × Image) × Rng :=
  let pr :=
    if rc then
      if HR_PATCH < img.w ∧ HR_PATCH < img.h then random_crop img HR_PATCH HR_PATCH g
      else (center_crop img HR_PATCH HR_PATCH, g)
    else (center_crop img HR_PATCH HR_PATCH, g)
  ((pr.1.1, downsample pr.1.1 LR_PATCH LR_PATCH), pr.2)

/-- The `for i in range(n)` loop of `process_generate_mode`, threading the
pseudorandom state and collecting the (HR patch, LR patch) pairs in order. -/
def genLoop (img : Image) (rc : Bool) : Nat → Rng → List (Image × Image) × Rng
  | 0, g => ([], g)
  | n + 1, g =>
    let p := genPatch img rc g
    let rest := genLoop img rc n p.2
    (p.1 :: rest.1, rest.2)

/-- Source `process_generate_mode` on a loaded RGB image: enforce the minimum size,
then produce `patches_per_image` (HR, LR) patch pairs.  Saving to disk is
modelled by returning the pairs. -/
def process_generate_mode (img : Image) (patches_per_image : Nat)
    (random_crop_enabled : Bool) (g : Rng) : List (Image × Image) × Rng :=
  genLoop (ensure_min_size img HR_PATCH) random_crop_enabled patches_per_image g

/-- The patch loop of `process_paired_mode`: crop the LR image, map the LR
offset into HR coordinates by `scale`, clamp it so the HR crop stays in
bounds, crop the HR image there, and resize the LR crop to exactly
`LR_PATCH` square. -/
def pairLoop (hr1 lr1 : Image) (scale : ℚ) (rc : Bool) :
    Nat → Rng → List (Image × Image) × Rng
  | 0, g => ([], g)
  | n + 1, g =>
    let cr :=
      if rc ∧ LR_PATCH < lr1.w ∧ LR_PATCH < lr1.h then random_crop lr1 LR_PATCH LR_PATCH g
      else (center_crop lr1 LR_PATCH LR_PATCH, g)
    let hrLeft : ℤ := min (max 0 (pyRound ((cr.1.2.1 : ℚ) * scale))) ((hr1.w : ℤ) - HR_PATCH)
    let hrTop : ℤ := min (max 0 (pyRound ((cr.1.2.2 : ℚ) * scale))) ((hr1.h : ℤ) - HR_PATCH)
    let hrPatch := pilCrop hr1 hrLeft.toNat hrTop.toNat HR_PATCH HR_PATCH
    let lrResized := resizeBicubic cr.1.1 LR_PATCH LR_PATCH
    let rest := pairLoop hr1 lr1 scale rc n cr.2
    ((hrPatch, lrResized) :: rest.1, rest.2)

/-- Result of `process_paired_mode`: warning lines printed, patch pairs
written, and the final pseudorandom state. -/
structure PairedResult where
  warnings : List String
  pairs : List (Image × Image)
  rng : Rng

/-- Source `process_paired_mode` on loaded RGB images.  Both consistency checks are
as in the source; on mismatch it falls back to generate mode on the HR image
alone with `patches_per_image = 1`. -/
def process_paired_mode (hr lr : Image) (rc : Bool) (g : Rng) : PairedResult :=
  let lr1 := ensure_min_size lr LR_PATCH
  let hr1 := ensure_min_size hr HR_PATCH
  let scale_w : ℚ := (hr1.w : ℚ) / (lr1.w : ℚ)
  let scale_h : ℚ := (hr1.h : ℚ) / (lr1.h : ℚ)
  if (1 : ℚ)/10 < |scale_w - scale_h| then
    let ps := process_generate_mode hr 1 rc g
    ⟨["[WARN] HR/LR aspect/scale mismatch -> falling back to generate mode."],
      ps.1, ps.2⟩
  else
    let scale := (scale_w + scale_h) / 2
    if (1 : ℚ)/2 < |scale - (UPSCALE : ℚ)| then
      let ps := process_generate_mode hr 1 rc g
      ⟨["[WARN] Expected scale mismatch. Falling back to generate mode."],
        ps.1, ps.2⟩
    else
      let patches := if rc then 3 else 1
      let ps := pairLoop hr1 lr1 scale rc patches g
      ⟨[], ps.1, ps.2⟩

/-- A candidate input file: its name and the outcome of loading it (an
unreadable or corrupt file loads to an error). -/
abbrev SrcEntry := String × Except String Image

def isErr : Except String Image → Bool
  | .error _ => true
  | .ok _ => false

/-- The error line `batch_process` prints for a failing file. -/
def errLine (f : SrcEntry) : String :=
  match f.2 with
  | .error e => "[ERROR] Processing " ++ f.1 ++ ": " ++ e
  | .ok _ => ""

/-- Accumulated state of the generate-mode batch loop. -/
structure BatchResult where
  processed : Nat
  errors : List String
  outputs : List (Image × Image)
  rng : Rng

/-- One iteration of the batch loop: the `try`/`except` around one file. -/
def batchStep (acc : BatchResult) (f : SrcEntry) : BatchResult :=
  match f.2 with
  | .error _ => { acc with errors := acc.errors ++ [errLine f] }
  | .ok img =>
    let ps := process_generate_mode img PATCHES_PER_IMAGE RANDOM_CROP acc.rng
    { processed := acc.processed + 1, errors := acc.errors,
      outputs := acc.outputs ++ ps.1, rng := ps.2 }

/-- The generate branch of `batch_process` over the enumerated files. -/
def batchRun (files : List SrcEntry) (g : Rng) : BatchResult :=
  files.foldl batchStep ⟨0, [], [], g⟩

/-- Source `batch_process`: only `"generate"` is supported; any other mode raises
`ValueError` before any per-image work. -/
def batch_process (mode : String) (files : List SrcEntry) (g : Rng) :
    Except String BatchResult :=
  if mode = "generate" then .ok (batchRun files g)
  else .error "Unknown mode. Choose 'generate'."

/-- A file in the input folder: stem and extension. -/
structure SrcFile where
  stem : String
  ext : String
deriving DecidableEq

def fpath (f : SrcFile) : String := f.stem ++ "." ++ f.ext

/-- The glob patterns of `get_all_image_files`, in source order. -/
def extListSrc : List String :=
  ["jpg", "jpeg", "png", "bmp", "tiff", "JPG", "JPEG", "PNG", "BMP", "TIFF"]

/-- Model of `p.glob(pattern)` for a `*.ext` pattern: the folder's files with that
extension, in enumeration order. -/
def globExt (folder : List SrcFile) (e : String) : List SrcFile :=
  folder.filter (fun f => f.ext == e)

/-- The order in which `get_all_image_files` visits files: all patterns in
`extListSrc` order, the folder's matches of each in enumeration order. -/
def enumFiles (folder : List SrcFile) : List SrcFile :=
  (extListSrc.map (globExt folder)).flatten

/-- Python dict assignment `files[stem] = path`: overwrite the existing
entry in place if the key is present, else append. -/
def dictInsert : List (String × String) → String → String → List (String × String)
  | [], k, v => [(k, v)]
  | (k', v') :: t, k, v =>
    if k' = k then (k, v) :: t else (k', v') :: dictInsert t k v

/-- Source `get_all_image_files`: build the stem → path dict over the enumeration. -/
def get_all_image_files (folder : List SrcFile) : List (String × String) :=
  (enumFiles folder).foldl (fun m f => dictInsert m f.stem (fpath f)) []

/-- Dict lookup (first entry with the key). -/
def lookupD (m : List (String × String)) (k : String) : Option String :=
  (m.find? (fun p => p.1 == k)).map (fun p => p.2)

/-- Number of entries of the dict carrying a given key. -/
def countKey (m : List (String × String)) (k : String) : Nat :=
  (m.filter (fun p => p.1 == k)).length

theorem randint_le (n : Nat) (g : Rng) : (randint 0 n g).1 ≤ n := by
  cases g with
  | nil => simp [randint]
  | cons d t =>
    have h : d % (n + 1 - 0) < n + 1 - 0 := Nat.mod_lt _ (by omega)
    simp only [randint]
    omega

theorem pilCrop_w (img : Image) (l t cw ch : Nat) : (pilCrop img l t cw ch).w = cw := rfl

theorem pilCrop_h (img : Image) (l t cw ch : Nat) : (pilCrop img l t cw ch).h = ch := rfl

theorem center_crop_patch_w (img : Image) (cw ch : Nat) :
    (center_crop img cw ch).1.w = cw := rfl

theorem center_crop_patch_h (img : Image) (cw ch : Nat) :
    (center_crop img cw ch).1.h = ch := rfl

theorem random_crop_patch_w (img : Image) (cw ch : Nat) (g : Rng) :
    (random_crop img cw ch g).1.1.w = cw := by
  rw [random_crop]
  split
  · next hc => exact hc.1
  · rfl

theorem random_crop_patch_h (img : Image) (cw ch : Nat) (g : Rng) :
    (random_crop img cw ch g).1.1.h = ch := by
  rw [random_crop]
  split
  · next hc => exact hc.2
  · rfl

theorem genLoop_length (img : Image) (rc : Bool) (n : Nat) (g : Rng) :
    (genLoop img rc n g).1.length = n := by
  induction n generalizing g with
  | zero => rfl
  | succ n ih => simp [genLoop, ih]

theorem process_generate_mode_length (img : Image) (n : Nat) (rc : Bool) (g : Rng) :
    (process_generate_mode img n rc g).1.length = n :=
  genLoop_length _ _ _ _

/-- C1: any mode other than `"generate"` makes `batch_process` raise
`ValueError` for the whole run, with no per-image processing performed. -/
theorem batch_process_unknown_mode_fatal (mode : String) (files : List SrcEntry)
    (g : Rng) (h : mode ≠ "generate") :
    batch_process mode files g = .error "Unknown mode. Choose 'generate'." := by
  simp [batch_process, h]

theorem batch_process_unknown_mode_fatal_witness :
    batch_process "paired" [("a", .ok ⟨500, 500, fun _ _ => 0⟩)] [] =
      .error "Unknown mode. Choose 'generate'." :=
  batch_process_unknown_mode_fatal "paired" [("a", .ok ⟨500, 500, fun _ _ => 0⟩)] []
    (by decide)

/-- C2 counterexample: a 10×100 image cropped to 20×20 has width smaller than
the crop, yet `center_crop` returns offset (0, 40), not (0, 0), and the
resulting patch is exactly 20×20 (PIL pads out-of-bounds pixels), not
smaller than requested. -/
theorem center_crop_undersized_cex :
    ((⟨10, 100, fun _ _ => 0⟩ : Image).w < 20 ∨
        (⟨10, 100, fun _ _ => 0⟩ : Image).h < 20) ∧
    (center_crop ⟨10, 100, fun _ _ => 0⟩ 20 20).2 ≠ (0, 0) ∧
    (center_crop ⟨10, 100, fun _ _ => 0⟩ 20 20).1.w = 20 ∧
    (center_crop ⟨10, 100, fun _ _ => 0⟩ 20 20).1.h = 20 := by
  refine ⟨Or.inl (by decide), ?_, rfl, rfl⟩
  decide

/-- C2 (amended): for an image undersized in width or height, `center_crop`
returns offset 0 along each undersized axis (never negative), and the
resulting patch has exactly the requested (crop_w, crop_h) dimensions, with
box pixels outside the source filled with black. -/
theorem center_crop_undersized (img : Image) (cw ch : Nat)
    (h : img.w < cw ∨ img.h < ch) :
    (img.w < cw → (center_crop img cw ch).2.1 = 0) ∧
    (img.h < ch → (center_crop img cw ch).2.2 = 0) ∧
    (center_crop img cw ch).1.w = cw ∧ (center_crop img cw ch).1.h = ch := by
  refine ⟨fun hw => ?_, fun hh => ?_, rfl, rfl⟩
  · simp [center_crop, Nat.sub_eq_zero_of_le (Nat.le_of_lt hw)]
  · simp [center_crop, Nat.sub_eq_zero_of_le (Nat.le_of_lt hh)]

theorem center_crop_undersized_witness :
    ((⟨10, 12, fun _ _ => 0⟩ : Image).w < 20 ∨
        (⟨10, 12, fun _ _ => 0⟩ : Image).h < 20) ∧
    (((⟨10, 12, fun _ _ => 0⟩ : Image).w < 20 →
        (center_crop ⟨10, 12, fun _ _ => 0⟩ 20 20).2.1 = 0) ∧
      ((⟨10, 12, fun _ _ => 0⟩ : Image).h < 20 →
        (center_crop ⟨10, 12, fun _ _ => 0⟩ 20 20).2.2 = 0) ∧
      (center_crop ⟨10, 12, fun _ _ => 0⟩ 20 20).1.w = 20 ∧
      (center_crop ⟨10, 12, fun _ _ => 0⟩ 20 20).1.h = 20) :=
  ⟨by decide, center_crop_undersized ⟨10, 12, fun _ _ => 0⟩ 20 20 (by decide)⟩

/-- C5: on an image at least as large as the crop in both dimensions, the
offsets returned by `center_crop` and `random_crop` are non-negative and
keep the crop box inside the image. -/
theorem crop_offsets_within_bounds (img : Image) (cw ch : Nat) (g : Rng)
    (hw : cw ≤ img.w) (hh : ch ≤ img.h) :
    (0 ≤ (center_crop img cw ch).2.1 ∧ 0 ≤ (center_crop img cw ch).2.2 ∧
      (center_crop img cw ch).2.1 + cw ≤ img.w ∧
      (center_crop img cw ch).2.2 + ch ≤ img.h) ∧
    (0 ≤ (random_crop img cw ch g).1.2.1 ∧ 0 ≤ (random_crop img cw ch g).1.2.2 ∧
      (random_crop img cw ch g).1.2.1 + cw ≤ img.w ∧
      (random_crop img cw ch g).1.2.2 + ch ≤ img.h) := by
  constructor
  · refine ⟨Nat.zero_le _, Nat.zero_le _, ?_, ?_⟩ <;>
      simp only [center_crop] <;>
      have := Nat.div_le_self (img.w - cw) 2 <;>
      have := Nat.div_le_self (img.h - ch) 2 <;> omega
  · rw [random_crop]
    split
    · next hc =>
      refine ⟨Nat.zero_le _, Nat.zero_le _, ?_, ?_⟩
      · show 0 + cw ≤ img.w
        omega
      · show 0 + ch ≤ img.h
        omega
    · refine ⟨Nat.zero_le _, Nat.zero_le _, ?_, ?_⟩
      · have h1 := randint_le (img.w - cw) g
        show (randint 0 (img.w - cw) g).1 + cw ≤ img.w
        omega
      · have h2 := randint_le (img.h - ch) (randint 0 (img.w - cw) g).2
        show (randint 0 (img.h - ch) (randint 0 (img.w - cw) g).2).1 + ch ≤ img.h
        omega

theorem crop_offsets_within_bounds_witness :
    (0 ≤ (center_crop ⟨500, 460, fun _ _ => 0⟩ 384 384).2.1 ∧
      0 ≤ (center_crop ⟨500, 460, fun _ _ => 0⟩ 384 384).2.2 ∧
      (center_crop ⟨500, 460, fun _ _ => 0⟩ 384 384).2.1 + 384 ≤ 500 ∧
      (center_crop ⟨500, 460, fun _ _ => 0⟩ 384 384).2.2 + 384 ≤ 460) ∧
    (0 ≤ (random_crop ⟨500, 460, fun _ _ => 0⟩ 384 384 [200, 77]).1.2.1 ∧
      0 ≤ (random_crop ⟨500, 460, fun _ _ => 0⟩ 384 384 [200, 77]).1.2.2 ∧
      (random_crop ⟨500, 460, fun _ _ => 0⟩ 384 384 [200, 77]).1.2.1 + 384 ≤ 500 ∧
      (random_crop ⟨500, 460, fun _ _ => 0⟩ 384 384 [200, 77]).1.2.2 + 384 ≤ 460) :=
  crop_offsets_within_bounds ⟨500, 460, fun _ _ => 0⟩ 384 384 [200, 77]
    (by decide) (by decide)

theorem ensure_min_size_eq_self (img : Image) (m : Nat) (h : m ≤ min img.w img.h) :
    ensure_min_size img m = img := by
  simp [ensure_min_size, h]

/-- C7: an image whose smaller dimension already meets `min_size` is returned
unchanged by `ensure_min_size`, dimensions and pixel content alike. -/
theorem ensure_min_size_id (img : Image) (m : Nat) (h : m ≤ min img.w img.h) :
    ensure_min_size img m = img :=
  ensure_min_size_eq_self img m h

theorem ensure_min_size_id_witness :
    ensure_min_size ⟨400, 500, fun x y => x * y⟩ 384 = ⟨400, 500, fun x y => x * y⟩ :=
  ensure_min_size_id ⟨400, 500, fun x y => x * y⟩ 384 (by decide)

theorem floor_le_pyRound (q : ℚ) : ⌊q⌋ ≤ pyRound q := by
  unfold pyRound
  split
  · exact le_refl _
  · split
    · omega
    · split
      · exact le_refl _
      · omega

theorem pyRound_intCast (n : ℤ) : pyRound (n : ℚ) = n := by
  unfold pyRound
  rw [Int.floor_intCast, sub_self, if_pos (by norm_num : (0 : ℚ) < 1/2)]

theorem pyRound_natCast (n : ℕ) : pyRound (n : ℚ) = (n : ℤ) := by
  have h := pyRound_intCast (n : ℤ)
  rwa [Int.cast_natCast] at h

theorem le_pyRound (n : ℤ) (q : ℚ) (h : (n : ℚ) ≤ q) : n ≤ pyRound q :=
  le_trans (Int.le_floor.mpr h) (floor_le_pyRound q)

theorem pyRound_nonneg (q : ℚ) (h : 0 ≤ q) : 0 ≤ pyRound q :=
  le_pyRound 0 q (by exact_mod_cast h)

theorem abs_pyRound_sub (q : ℚ) : |(pyRound q : ℚ) - q| ≤ 1/2 := by
  have h0 : (⌊q⌋ : ℚ) ≤ q := Int.floor_le q
  have h1 : q < (⌊q⌋ : ℚ) + 1 := Int.lt_floor_add_one q
  unfold pyRound
  split
  · next hc => rw [abs_of_nonpos (by linarith)]; linarith
  · next hc =>
    push_neg at hc
    split
    · next hc2 => push_cast; rw [abs_of_nonneg (by linarith)]; linarith
    · next hc2 =>
      push_neg at hc2
      split
      · rw [abs_of_nonpos (by linarith)]; linarith
      · push_cast; rw [abs_of_nonneg (by linarith)]; linarith

theorem abs_toNat_pyRound (q : ℚ) (h : 0 ≤ q) :
    |(((pyRound q).toNat : ℕ) : ℚ) - q| ≤ 1/2 := by
  have hnn := pyRound_nonneg q h
  have h2 : ((pyRound q).toNat : ℤ) = pyRound q := Int.toNat_of_nonneg hnn
  have h3 : (((pyRound q).toNat : ℕ) : ℚ) = ((pyRound q : ℤ) : ℚ) := by
    exact_mod_cast congrArg (fun z : ℤ => (z : ℚ)) h2
  rw [h3]
  exact abs_pyRound_sub q

theorem pyRound_scale_self (a m : ℕ) (ha : 0 < a) :
    (pyRound ((a : ℚ) * ((m : ℚ) / (a : ℚ)))).toNat = m := by
  have hne : (a : ℚ) ≠ 0 := Nat.cast_ne_zero.mpr (Nat.pos_iff_ne_zero.mp ha)
  rw [← mul_div_assoc, mul_div_cancel_left₀ _ hne, pyRound_natCast, Int.toNat_natCast]

theorem pyRound_scale_ge (a b m : ℕ) (ha : 0 < a) (hab : a ≤ b) :
    m ≤ (pyRound ((b : ℚ) * ((m : ℚ) / (a : ℚ)))).toNat := by
  have hne : (a : ℚ) ≠ 0 := Nat.cast_ne_zero.mpr (Nat.pos_iff_ne_zero.mp ha)
  have h1 : (a : ℚ) * ((m : ℚ) / (a : ℚ)) = m := by
    rw [← mul_div_assoc, mul_div_cancel_left₀ _ hne]
  have hq : (m : ℚ) ≤ (b : ℚ) * ((m : ℚ) / (a : ℚ)) := by
    calc (m : ℚ) = (a : ℚ) * ((m : ℚ) / (a : ℚ)) := h1.symm
      _ ≤ (b : ℚ) * ((m : ℚ) / (a : ℚ)) := by
          apply mul_le_mul_of_nonneg_right
          · exact_mod_cast hab
          · positivity
  have hpr : (m : ℤ) ≤ pyRound ((b : ℚ) * ((m : ℚ) / (a : ℚ))) :=
    le_pyRound m _ (by exact_mod_cast hq)
  have h4 := Int.toNat_le_toNat hpr
  rwa [Int.toNat_natCast] at h4

/-- C6: for an image whose smaller dimension is under `min_size`,
`ensure_min_size` makes the smaller output dimension exactly `min_size`, and
both output dimensions are the uniform scaling `min_size / min(w, h)` of the
input dimensions to within rounding (distance ≤ 1/2). -/
theorem ensure_min_size_upscales (img : Image) (m : Nat)
    (hw : 0 < img.w) (hh : 0 < img.h) (hlt : min img.w img.h < m) :
    min (ensure_min_size img m).w (ensure_min_size img m).h = m ∧
    |((ensure_min_size img m).w : ℚ) -
        (img.w : ℚ) * ((m : ℚ) / ((min img.w img.h : ℕ) : ℚ))| ≤ 1/2 ∧
    |((ensure_min_size img m).h : ℚ) -
        (img.h : ℚ) * ((m : ℚ) / ((min img.w img.h : ℕ) : ℚ))| ≤ 1/2 := by
  have hnot : ¬ (m ≤ min img.w img.h) := by omega
  simp only [ensure_min_size, if_neg hnot, resizeLanczos]
  refine ⟨?_, abs_toNat_pyRound _ (by positivity), abs_toNat_pyRound _ (by positivity)⟩
  rcases Nat.le_total img.w img.h with hle | hle
  · rw [Nat.min_eq_left hle, pyRound_scale_self img.w m hw]
    exact Nat.min_eq_left (pyRound_scale_ge img.w img.h m hw hle)
  · rw [Nat.min_eq_right hle, pyRound_scale_self img.h m hh]
    exact Nat.min_eq_right (pyRound_scale_ge img.h img.w m hh hle)

theorem ensure_min_size_upscales_witness :
    (0 < (200 : Nat) ∧ 0 < (300 : Nat) ∧ min 200 300 < 384) ∧
    (min (ensure_min_size ⟨200, 300, fun _ _ => 0⟩ 384).w
        (ensure_min_size ⟨200, 300, fun _ _ => 0⟩ 384).h = 384 ∧
      |((ensure_min_size ⟨200, 300, fun _ _ => 0⟩ 384).w : ℚ) -
          ((⟨200, 300, fun _ _ => 0⟩ : Image).w : ℚ) *
            ((384 : ℚ) /
              ((min (⟨200, 300, fun _ _ => 0⟩ : Image).w
                  (⟨200, 300, fun _ _ => 0⟩ : Image).h : ℕ) : ℚ))| ≤ 1/2 ∧
      |((ensure_min_size ⟨200, 300, fun _ _ => 0⟩ 384).h : ℚ) -
          ((⟨200, 300, fun _ _ => 0⟩ : Image).h : ℚ) *
            ((384 : ℚ) /
              ((min (⟨200, 300, fun _ _ => 0⟩ : Image).w
                  (⟨200, 300, fun _ _ => 0⟩ : Image).h : ℕ) : ℚ))| ≤ 1/2) :=
  ⟨⟨by decide, by decide, by decide⟩,
    ensure_min_size_upscales ⟨200, 300, fun _ _ => 0⟩ 384 (by decide) (by decide)
      (by decide)⟩

/-- C10: `random_crop` on an image whose dimensions exactly equal the crop
dimensions returns a full copy at offset (0, 0) and leaves the pseudorandom
state untouched. -/
theorem random_crop_exact_size_no_draw (img : Image) (cw ch : Nat) (g : Rng)
    (hw : img.w = cw) (hh : img.h = ch) :
    random_crop img cw ch g = ((img, (0, 0)), g) := by
  simp [random_crop, hw, hh]

theorem genPatch_dims (img : Image) (rc : Bool) (g : Rng) :
    (genPatch img rc g).1.1.w = HR_PATCH ∧ (genPatch img rc g).1.1.h = HR_PATCH ∧
    (genPatch img rc g).1.2.w = LR_PATCH ∧ (genPatch img rc g).1.2.h = LR_PATCH := by
  simp only [genPatch]
  split
  · split
    · exact ⟨random_crop_patch_w img HR_PATCH HR_PATCH g,
        random_crop_patch_h img HR_PATCH HR_PATCH g, rfl, rfl⟩
    · exact ⟨rfl, rfl, rfl, rfl⟩
  · exact ⟨rfl, rfl, rfl, rfl⟩

/-- C4: in generate mode every source image yields exactly
`patches_per_image` pairs, each with a `HR_PATCH × HR_PATCH = 384 × 384`
high-res patch and a `LR_PATCH × LR_PATCH = 96 × 96` low-res patch. -/
theorem process_generate_mode_count_and_dims (img : Image) (n : Nat) (rc : Bool)
    (g : Rng) :
    HR_PATCH = 384 ∧ LR_PATCH = 96 ∧
    (process_generate_mode img n rc g).1.length = n ∧
    ∀ p ∈ (process_generate_mode img n rc g).1,
      p.1.w = 384 ∧ p.1.h = 384 ∧ p.2.w = 96 ∧ p.2.h = 96 := by
  refine ⟨rfl, rfl, process_generate_mode_length img n rc g, ?_⟩
  show ∀ p ∈ (genLoop (ensure_min_size img HR_PATCH) rc n g).1, _
  generalize ensure_min_size img HR_PATCH = im
  induction n generalizing g with
  | zero => intro p hp; cases hp
  | succ n ih =>
    intro p hp
    rw [genLoop] at hp
    rcases List.mem_cons.mp hp with h | h
    · subst h
      exact genPatch_dims im rc g
    · exact ih _ p h

theorem random_crop_exact_size_no_draw_witness :
    random_crop ⟨5, 5, fun x y => x + y⟩ 5 5 [9, 9] =
      ((⟨5, 5, fun x y => x + y⟩, (0, 0)), [9, 9]) :=
  random_crop_exact_size_no_draw ⟨5, 5, fun x y => x + y⟩ 5 5 [9, 9] rfl rfl

theorem ensure_min_size_dims_congr (a b : Image) (m : Nat) (h1 : a.w = b.w)
    (h2 : a.h = b.h) :
    (ensure_min_size a m).w = (ensure_min_size b m).w ∧
    (ensure_min_size a m).h = (ensure_min_size b m).h := by
  simp only [ensure_min_size, resizeLanczos]
  rw [h1, h2]
  split_ifs with hc
  · exact ⟨h1, h2⟩
  · exact ⟨rfl, rfl⟩

/-- C3: when, after `ensure_min_size`, the per-axis scales differ by more
than 0.1, or else their average deviates from `UPSCALE` by more than 0.5,
`process_paired_mode` emits exactly one warning and produces exactly one
generate-mode patch pair from the high-res image alone; the result is
unchanged when the low-res image's pixel content is replaced (same
dimensions), so no low-res pixel content reaches any output. -/
theorem process_paired_mode_fallback (hr lr lr2 : Image) (rc : Bool) (g : Rng)
    (hlrw : 0 < lr.w) (hlrh : 0 < lr.h) (hhrw : 0 < hr.w) (hhrh : 0 < hr.h)
    (h2w : lr2.w = lr.w) (h2h : lr2.h = lr.h)
    (hcond :
      (1 : ℚ)/10 <
          |((ensure_min_size hr HR_PATCH).w : ℚ) /
              ((ensure_min_size lr LR_PATCH).w : ℚ) -
            ((ensure_min_size hr HR_PATCH).h : ℚ) /
              ((ensure_min_size lr LR_PATCH).h : ℚ)| ∨
        (1 : ℚ)/2 <
          |(((ensure_min_size hr HR_PATCH).w : ℚ) /
                ((ensure_min_size lr LR_PATCH).w : ℚ) +
              ((ensure_min_size hr HR_PATCH).h : ℚ) /
                ((ensure_min_size lr LR_PATCH).h : ℚ)) / 2 -
            (UPSCALE : ℚ)|) :
    (process_paired_mode hr lr rc g).warnings.length = 1 ∧
    (process_paired_mode hr lr rc g).pairs.length = 1 ∧
    (process_paired_mode hr lr rc g).pairs = (process_generate_mode hr 1 rc g).1 ∧
    process_paired_mode hr lr2 rc g = process_paired_mode hr lr rc g := by
  obtain ⟨ew, eh⟩ := ensure_min_size_dims_congr lr2 lr LR_PATCH h2w h2h
  by_cases hA :
      (1 : ℚ)/10 <
        |((ensure_min_size hr HR_PATCH).w : ℚ) /
            ((ensure_min_size lr LR_PATCH).w : ℚ) -
          ((ensure_min_size hr HR_PATCH).h : ℚ) /
            ((ensure_min_size lr LR_PATCH).h : ℚ)|
  · have e1 : process_paired_mode hr lr rc g =
        ⟨["[WARN] HR/LR aspect/scale mismatch -> falling back to generate mode."],
          (process_generate_mode hr 1 rc g).1, (process_generate_mode hr 1 rc g).2⟩ := by
      simp only [process_paired_mode]
      rw [if_pos hA]
    have e2 : process_paired_mode hr lr2 rc g =
        ⟨["[WARN] HR/LR aspect/scale mismatch -> falling back to generate mode."],
          (process_generate_mode hr 1 rc g).1, (process_generate_mode hr 1 rc g).2⟩ := by
      simp only [process_paired_mode]
      rw [ew, eh, if_pos hA]
    refine ⟨?_, ?_, ?_, ?_⟩
    · rw [e1]
      rfl
    · rw [e1]
      exact process_generate_mode_length hr 1 rc g
    · rw [e1]
    · rw [e1, e2]
  · have hB :
        (1 : ℚ)/2 <
          |(((ensure_min_size hr HR_PATCH).w : ℚ) /
                ((ensure_min_size lr LR_PATCH).w : ℚ) +
              ((ensure_min_size hr HR_PATCH).h : ℚ) /
                ((ensure_min_size lr LR_PATCH).h : ℚ)) / 2 -
            (UPSCALE : ℚ)| := hcond.resolve_left hA
    have e1 : process_paired_mode hr lr rc g =
        ⟨["[WARN] Expected scale mismatch. Falling back to generate mode."],
          (process_generate_mode hr 1 rc g).1, (process_generate_mode hr 1 rc g).2⟩ := by
      simp only [process_paired_mode]
      rw [if_neg hA, if_pos hB]
    have e2 : process_paired_mode hr lr2 rc g =
        ⟨["[WARN] Expected scale mismatch. Falling back to generate mode."],
          (process_generate_mode hr 1 rc g).1, (process_generate_mode hr 1 rc g).2⟩ := by
      simp only [process_paired_mode]
      rw [ew, eh, if_neg hA, if_pos hB]
    refine ⟨?_, ?_, ?_, ?_⟩
    · rw [e1]
      rfl
    · rw [e1]
      exact process_generate_mode_length hr 1 rc g
    · rw [e1]
    · rw [e1, e2]

theorem process_paired_mode_fallback_witness :
    (process_paired_mode ⟨400, 400, fun _ _ => 0⟩ ⟨100, 130, fun _ _ => 0⟩
        true []).warnings.length = 1 ∧
    (process_paired_mode ⟨400, 400, fun _ _ => 0⟩ ⟨100, 130, fun _ _ => 0⟩
        true []).pairs.length = 1 ∧
    (process_paired_mode ⟨400, 400, fun _ _ => 0⟩ ⟨100, 130, fun _ _ => 0⟩
        true []).pairs =
      (process_generate_mode ⟨400, 400, fun _ _ => 0⟩ 1 true []).1 ∧
    process_paired_mode ⟨400, 400, fun _ _ => 0⟩ ⟨100, 130, fun _ _ => 7⟩ true [] =
      process_paired_mode ⟨400, 400, fun _ _ => 0⟩ ⟨100, 130, fun _ _ => 0⟩ true [] :=
  process_paired_mode_fallback ⟨400, 400, fun _ _ => 0⟩ ⟨100, 130, fun _ _ => 0⟩
    ⟨100, 130, fun _ _ => 7⟩ true [] (by decide) (by decide) (by decide) (by decide)
    rfl rfl
    (Or.inl (by
      rw [ensure_min_size_eq_self ⟨400, 400, fun _ _ => 0⟩ HR_PATCH (by decide),
        ensure_min_size_eq_self ⟨100, 130, fun _ _ => 0⟩ LR_PATCH (by decide)]
      show (1 : ℚ)/10 <
        |((400 : ℕ) : ℚ)/((100 : ℕ) : ℚ) - ((400 : ℕ) : ℚ)/((130 : ℕ) : ℚ)|
      have he : ((400 : ℕ) : ℚ)/((100 : ℕ) : ℚ) - ((400 : ℕ) : ℚ)/((130 : ℕ) : ℚ)
          = 12/13 := by
        norm_num
      rw [he, abs_of_nonneg (by norm_num : (0 : ℚ) ≤ 12/13)]
      norm_num))

theorem batchRun_go (files : List SrcEntry) (acc : BatchResult) :
    ((files.foldl batchStep acc).processed
        = acc.processed + (files.filter (fun f => !(isErr f.2))).length) ∧
    ((files.foldl batchStep acc).errors
        = acc.errors ++ (files.filter (fun f => isErr f.2)).map errLine) ∧
    ((files.foldl batchStep acc).outputs.length
        = acc.outputs.length
          + PATCHES_PER_IMAGE * (files.filter (fun f => !(isErr f.2))).length) := by
  induction files generalizing acc with
  | nil => simp
  | cons f t ih =>
    obtain ⟨name, load⟩ := f
    cases load with
    | error e =>
      obtain ⟨p1, p2, p3⟩ := ih (batchStep acc (name, .error e))
      simp only [List.foldl_cons]
      refine ⟨?_, ?_, ?_⟩
      · rw [p1]
        simp [batchStep, isErr]
      · rw [p2]
        simp [batchStep, isErr]
      · rw [p3]
        simp [batchStep, isErr]
    | ok img =>
      obtain ⟨p1, p2, p3⟩ := ih (batchStep acc (name, .ok img))
      simp only [List.foldl_cons]
      refine ⟨?_, ?_, ?_⟩
      · rw [p1]
        simp [batchStep, isErr]
        omega
      · rw [p2]
        simp [batchStep, isErr]
      · rw [p3]
        simp [batchStep, isErr, process_generate_mode_length, PATCHES_PER_IMAGE]
        omega

/-- C8: in generate mode, per-file failures are isolated: the batch completes
normally, every loadable file is still processed (contributing its
`PATCHES_PER_IMAGE` patch pairs), each failing file is logged with its path
and error, and the final processed count equals the number of successfully
processed files. -/
theorem batch_process_error_isolation (files : List SrcEntry) (g : Rng)
    (hfail : ∃ f ∈ files, isErr f.2 = true) :
    batch_process "generate" files g = .ok (batchRun files g) ∧
    (batchRun files g).processed = (files.filter (fun f => !(isErr f.2))).length ∧
    (batchRun files g).errors = (files.filter (fun f => isErr f.2)).map errLine ∧
    (batchRun files g).outputs.length
      = PATCHES_PER_IMAGE * (files.filter (fun f => !(isErr f.2))).length := by
  obtain ⟨p1, p2, p3⟩ := batchRun_go files ⟨0, [], [], g⟩
  exact ⟨rfl, by simpa [batchRun] using p1, by simpa [batchRun] using p2,
    by simpa [batchRun] using p3⟩

theorem batch_process_error_isolation_witness :
    (∃ f ∈ [(("a", Except.ok ⟨500, 500, fun _ _ => 0⟩) : SrcEntry),
        ("b", Except.error "bad file"), ("c", Except.ok ⟨500, 500, fun _ _ => 1⟩)],
      isErr f.2 = true) ∧
    (batch_process "generate"
        [("a", .ok ⟨500, 500, fun _ _ => 0⟩), ("b", .error "bad file"),
          ("c", .ok ⟨500, 500, fun _ _ => 1⟩)] [] =
      .ok (batchRun
        [("a", .ok ⟨500, 500, fun _ _ => 0⟩), ("b", .error "bad file"),
          ("c", .ok ⟨500, 500, fun _ _ => 1⟩)] []) ∧
      (batchRun [("a", .ok ⟨500, 500, fun _ _ => 0⟩), ("b", .error "bad file"),
          ("c", .ok ⟨500, 500, fun _ _ => 1⟩)] []).processed =
        ([(("a", Except.ok ⟨500, 500, fun _ _ => 0⟩) : SrcEntry),
            ("b", Except.error "bad file"),
            ("c", Except.ok ⟨500, 500, fun _ _ => 1⟩)].filter
          (fun f => !(isErr f.2))).length ∧
      (batchRun [("a", .ok ⟨500, 500, fun _ _ => 0⟩), ("b", .error "bad file"),
          ("c", .ok ⟨500, 500, fun _ _ => 1⟩)] []).errors =
        ([(("a", Except.ok ⟨500, 500, fun _ _ => 0⟩) : SrcEntry),
            ("b", Except.error "bad file"),
            ("c", Except.ok ⟨500, 500, fun _ _ => 1⟩)].filter
          (fun f => isErr f.2)).map errLine ∧
      (batchRun [("a", .ok ⟨500, 500, fun _ _ => 0⟩), ("b", .error "bad file"),
          ("c", .ok ⟨500, 500, fun _ _ => 1⟩)] []).outputs.length =
        PATCHES_PER_IMAGE *
          ([(("a", Except.ok ⟨500, 500, fun _ _ => 0⟩) : SrcEntry),
              ("b", Except.error "bad file"),
              ("c", Except.ok ⟨500, 500, fun _ _ => 1⟩)].filter
            (fun f => !(isErr f.2))).length) :=
  ⟨⟨("b", Except.error "bad file"), by simp, rfl⟩,
    batch_process_error_isolation
      [("a", .ok ⟨500, 500, fun _ _ => 0⟩), ("b", .error "bad file"),
        ("c", .ok ⟨500, 500, fun _ _ => 1⟩)] []
      ⟨("b", Except.error "bad file"), by simp, rfl⟩⟩

theorem dictInsert_find_self (m : List (String × String)) (k v : String) :
    (dictInsert m k v).find? (fun p => p.1 == k) = some (k, v) := by
  induction m with
  | nil => simp [dictInsert]
  | cons p t ih =>
    obtain ⟨k', v'⟩ := p
    by_cases hk : k' = k
    · subst hk
      simp [dictInsert]
    · simp [dictInsert, hk, ih]

theorem dictInsert_find_ne (m : List (String × String)) (k0 v k : String)
    (h : k0 ≠ k) :
    (dictInsert m k0 v).find? (fun p => p.1 == k) = m.find? (fun p => p.1 == k) := by
  induction m with
  | nil => simp [dictInsert, h]
  | cons p t ih =>
    obtain ⟨k', v'⟩ := p
    by_cases hk : k' = k0
    · have hd : dictInsert ((k', v') :: t) k0 v = (k0, v) :: t := by
        simp [dictInsert, hk]
      have hne1 : (k0 == k) = false := by simp [h]
      have hne2 : (k' == k) = false := by simp [hk, h]
      rw [hd]
      simp [List.find?, hne1, hne2]
    · have hd : dictInsert ((k', v') :: t) k0 v = (k', v') :: dictInsert t k0 v := by
        simp [dictInsert, hk]
      rw [hd]
      cases hkk : (k' == k) with
      | true => simp [List.find?, hkk]
      | false => simp [List.find?, hkk, ih]

theorem lookupD_dictInsert_self (m : List (String × String)) (k v : String) :
    lookupD (dictInsert m k v) k = some v := by
  simp [lookupD, dictInsert_find_self]

theorem lookupD_dictInsert_ne (m : List (String × String)) (k0 v k : String)
    (h : k0 ≠ k) : lookupD (dictInsert m k0 v) k = lookupD m k := by
  simp [lookupD, dictInsert_find_ne _ _ _ _ h]

theorem dictInsert_countKey_self (m : List (String × String)) (k v : String) :
    countKey (dictInsert m k v) k = max (countKey m k) 1 := by
  induction m with
  | nil => simp [dictInsert, countKey]
  | cons p t ih =>
    obtain ⟨k', v'⟩ := p
    by_cases hk : k' = k
    · have hd : dictInsert ((k', v') :: t) k v = (k, v) :: t := by
        simp [dictInsert, hk]
      rw [hd]
      simp only [countKey, List.filter_cons]
      simp [hk]
    · have hd : dictInsert ((k', v') :: t) k v = (k', v') :: dictInsert t k v := by
        simp [dictInsert, hk]
      rw [hd]
      simp only [countKey, List.filter_cons]
      simp only [countKey] at ih
      simp [hk, ih]

theorem dictInsert_countKey_ne (m : List (String × String)) (k0 v k : String)
    (h : k0 ≠ k) : countKey (dictInsert m k0 v) k = countKey m k := by
  induction m with
  | nil => simp [dictInsert, countKey, h]
  | cons p t ih =>
    obtain ⟨k', v'⟩ := p
    by_cases hk : k' = k0
    · have hd : dictInsert ((k', v') :: t) k0 v = (k0, v) :: t := by
        simp [dictInsert, hk]
      have hne1 : (k0 == k) = false := by simp [h]
      have hne2 : (k' == k) = false := by simp [hk, h]
      rw [hd]
      simp only [countKey, List.filter_cons]
      simp [hne1, hne2]
    · have hd : dictInsert ((k', v') :: t) k0 v = (k', v') :: dictInsert t k0 v := by
        simp [dictInsert, hk]
      rw [hd]
      simp only [countKey, List.filter_cons]
      simp only [countKey] at ih
      cases hkk : (k' == k) <;> simp [hkk, ih]

theorem fold_countKey_le (l : List SrcFile) (m : List (String × String))
    (k : String) (hm : countKey m k ≤ 1) :
    countKey (l.foldl (fun m f => dictInsert m f.stem (fpath f)) m) k ≤ 1 := by
  induction l generalizing m with
  | nil => exact hm
  | cons x t ih =>
    apply ih
    show countKey (dictInsert m x.stem (fpath x)) k ≤ 1
    by_cases hx : x.stem = k
    · rw [hx, dictInsert_countKey_self]
      omega
    · rw [dictInsert_countKey_ne _ _ _ _ hx]
      exact hm

theorem fold_lookupD_none (l : List SrcFile) (m : List (String × String))
    (k : String) (h : l.filter (fun f => f.stem == k) = []) :
    lookupD (l.foldl (fun m f => dictInsert m f.stem (fpath f)) m) k = lookupD m k := by
  induction l using List.reverseRecOn with
  | nil => rfl
  | append_singleton l x ih =>
    rw [List.filter_append] at h
    have hx : ¬ (x.stem == k) = true := by
      intro hx
      simp [hx] at h
    have hl : l.filter (fun f => f.stem == k) = [] := by
      rcases List.append_eq_nil.mp h with ⟨h1, _⟩
      exact h1
    rw [List.foldl_append, List.foldl_cons, List.foldl_nil,
      lookupD_dictInsert_ne _ _ _ _ (by simpa using hx), ih hl]

theorem fold_lookupD_last (l : List SrcFile) (m : List (String × String))
    (k : String) (z : SrcFile)
    (h : (l.filter (fun f => f.stem == k)).getLast? = some z) :
    lookupD (l.foldl (fun m f => dictInsert m f.stem (fpath f)) m) k
      = some (fpath z) := by
  induction l using List.reverseRecOn generalizing m with
  | nil => simp at h
  | append_singleton l x ih =>
    rw [List.filter_append] at h
    by_cases hx : x.stem = k
    · have hfx : List.filter (fun f => f.stem == k) [x] = [x] := by
        simp [hx]
      rw [hfx, List.getLast?_concat] at h
      obtain rfl : x = z := by
        injection h
      rw [List.foldl_append, List.foldl_cons, List.foldl_nil, hx,
        lookupD_dictInsert_self]
    · have hfx : List.filter (fun f => f.stem == k) [x] = [] := by
        simp [hx]
      rw [hfx, List.append_nil] at h
      rw [List.foldl_append, List.foldl_cons, List.foldl_nil,
        lookupD_dictInsert_ne _ _ _ _ hx]
      exact ih m h

theorem countKey_pos_of_lookupD (m : List (String × String)) (k v : String)
    (h : lookupD m k = some v) : 1 ≤ countKey m k := by
  unfold lookupD at h
  cases hf : m.find? (fun p => p.1 == k) with
  | none => rw [hf] at h; simp at h
  | some q =>
    have hmem := List.mem_of_find?_eq_some hf
    have hq := List.find?_some hf
    have hqf : q ∈ m.filter (fun p => p.1 == k) := List.mem_filter.mpr ⟨hmem, hq⟩
    have := List.length_pos.mpr (List.ne_nil_of_mem hqf)
    unfold countKey
    omega

/-- C9: when two or more enumerated files share a filename stem,
`get_all_image_files` keeps exactly one entry for that stem, and its path is
the one enumerated last (later files silently overwrite earlier ones). -/
theorem get_all_image_files_stem_overwrite (folder : List SrcFile) (s : String)
    (h : 2 ≤ ((enumFiles folder).filter (fun f => f.stem == s)).length) :
    ((get_all_image_files folder).filter (fun p => p.1 == s)).length = 1 ∧
    lookupD (get_all_image_files folder) s
      = ((enumFiles folder).filter (fun f => f.stem == s)).getLast?.map fpath := by
  have hne : (enumFiles folder).filter (fun f => f.stem == s) ≠ [] := by
    intro hnil
    rw [hnil] at h
    simp at h
  have hisSome : ((enumFiles folder).filter (fun f => f.stem == s)).getLast?.isSome :=
    List.getLast?_isSome.mpr hne
  obtain ⟨z, hz⟩ := Option.isSome_iff_exists.mp hisSome
  have hl : lookupD (get_all_image_files folder) s = some (fpath z) :=
    fold_lookupD_last (enumFiles folder) [] s z hz
  constructor
  · have hle : countKey (get_all_image_files folder) s ≤ 1 :=
      fold_countKey_le (enumFiles folder) [] s (by simp [countKey])
    have hge : 1 ≤ countKey (get_all_image_files folder) s :=
      countKey_pos_of_lookupD _ s (fpath z) hl
    have : countKey (get_all_image_files folder) s = 1 := by omega
    exact this
  · rw [hl, hz]
    rfl

theorem get_all_image_files_stem_overwrite_witness :
    (2 ≤ ((enumFiles [⟨"a", "png"⟩, ⟨"a", "jpg"⟩]).filter
        (fun f => f.stem == "a")).length) ∧
    (((get_all_image_files [⟨"a", "png"⟩, ⟨"a", "jpg"⟩]).filter
        (fun p => p.1 == "a")).length = 1 ∧
      lookupD (get_all_image_files [⟨"a", "png"⟩, ⟨"a", "jpg"⟩]) "a"
        = ((enumFiles [⟨"a", "png"⟩, ⟨"a", "jpg"⟩]).filter
            (fun f => f.stem == "a")).getLast?.map fpath) :=
  ⟨by decide, get_all_image_files_stem_overwrite [⟨"a", "png"⟩, ⟨"a", "jpg"⟩] "a"
    (by decide)⟩

end SRGAN
